import Mathlib

/-!
Verification of the order-lifecycle and pickup-verification subsystem of the
cafeteria ordering application.  The logic of this repository lives in its
PostgreSQL schema, triggers and stored functions; this file embeds that
database state and those operations shallowly in Lean:

* monetary amounts (`DECIMAL(10,2)`) are integers counted in cents, so the
  documented tolerance of 0.05 currency units is 5 cents;
* `uuid` keys and timestamps are natural numbers;
* each stored function or trigger becomes a Lean function over an explicit
  `DB` state, translated clause by clause from the SQL source;
* the value of `RANDOM()` inside `generate_pickup_code` is supplied as an
  explicit list of draws.
-/

namespace Cafeteria

/-- Order lifecycle states, from the `order_status` enum and the `CHECK`
constraint on `orders.status`. -/
inductive OrderStatus where
  | placed
  | confirmed
  | preparing
  | ready
  | completed
  | cancelled
deriving DecidableEq

/-- Terminal statuses: the statuses excluded by `status NOT IN ('completed',
'cancelled')` in `generate_pickup_code` and called terminal by the schema
comments. -/
def OrderStatus.isTerminal : OrderStatus → Bool
  | .completed => true
  | .cancelled => true
  | _ => false

/-- The wire string of a status, used by the audit-trail note built in
`log_order_status_change`. -/
def OrderStatus.text : OrderStatus → String
  | .placed => "placed"
  | .confirmed => "confirmed"
  | .preparing => "preparing"
  | .ready => "ready"
  | .completed => "completed"
  | .cancelled => "cancelled"

/-- A row of `menu_items`, keeping the columns the modeled operations read:
`id`, `price` (cents) and `available`. -/
structure MenuItem where
  id : Nat
  price : Int
  available : Bool
deriving DecidableEq

/-- A row of `orders` (the columns of the `CREATE TABLE orders` statement;
`notes` is omitted as no modeled operation reads it). -/
structure Order where
  id : Nat
  user_id : Nat
  status : OrderStatus
  total_amount : Int
  pickup_time : Option Nat
  pickup_code : String
  created_at : Nat
  updated_at : Nat
  completed_at : Option Nat
deriving DecidableEq

/-- A row of `order_items`: the columns read by `calculate_order_total` and
the insertion checks (`special_instructions` is omitted as unread). -/
structure OrderItem where
  order_id : Nat
  menu_item_id : Nat
  quantity : Nat
  unit_price : Int
deriving DecidableEq

/-- A row of `order_status_history`, as inserted by
`log_order_status_change`. -/
structure HistoryEntry where
  order_id : Nat
  previous_status : Option OrderStatus
  new_status : OrderStatus
  changed_by : Option Nat
  changed_at : Nat
  notes : Option String
deriving DecidableEq

/-- A row of `notifications`; `ntype` models the `type` column, `read_at =
none` means unread.  `title` and `message` are omitted as unread by the
modeled operations. -/
structure Notification where
  id : Nat
  user_id : Nat
  order_id : Option Nat
  ntype : String
  sent_at : Nat
  read_at : Option Nat
deriving DecidableEq

/-- The database state: the five tables the order-lifecycle subsystem
touches. -/
structure DB where
  menu_items : List MenuItem
  orders : List Order
  order_items : List OrderItem
  order_status_history : List HistoryEntry
  notifications : List Notification
deriving DecidableEq

/-- `SELECT COALESCE(SUM(quantity * unit_price), 0) FROM order_items WHERE
order_id = p_order_id`, the body of `calculate_order_total` (and of the
disabled `validate_order_total` trigger). -/
def calculate_order_total (db : DB) (p_order_id : Nat) : Int :=
  ((db.order_items.filter (fun it => it.order_id == p_order_id)).map
    (fun it => (it.quantity : Int) * it.unit_price)).sum

/-- The check performed by the `validate_order_total` trigger function:
it raises when `ABS(NEW.total_amount - calculated_total) > 0.05`, so the
order passes exactly when the difference is at most 5 cents.  Note the
trigger that would install this function on `orders` is commented out in
the source. -/
def validate_order_total (db : DB) (o : Order) : Bool :=
  if (o.total_amount - calculate_order_total db o.id).natAbs > 5 then false else true

/-- `LPAD(n::TEXT, 4, '0')` for `n < 10000`: the four decimal digits of `n`,
most significant first, zero padded. -/
def lpad4 (n : Nat) : String :=
  String.mk [Nat.digitChar (n / 1000 % 10), Nat.digitChar (n / 100 % 10),
    Nat.digitChar (n / 10 % 10), Nat.digitChar (n % 10)]

/-- The collision check inside `generate_pickup_code`: `EXISTS (SELECT 1
FROM orders WHERE pickup_code = new_code AND status NOT IN ('completed',
'cancelled'))`. -/
def activeCodeExists (db : DB) (new_code : String) : Bool :=
  db.orders.any (fun o => o.pickup_code == new_code && !o.status.isTerminal)

/-- The `generate_pickup_code` stored function.  Each loop iteration draws
`FLOOR(RANDOM() * 10000)`; the draws are supplied as a list (the SQL loop
is unbounded, so an exhausted list returns `none` in place of
non-termination). -/
def generate_pickup_code (db : DB) : List Nat → Option String
  | [] => none
  | d :: draws =>
    let new_code := lpad4 (d % 10000)
    if activeCodeExists db new_code then generate_pickup_code db draws
    else some new_code

/-- The `verify_pickup_code` stored function: returns the rows of `orders`
with `pickup_code = p_pickup_code AND status = 'ready'`.  An empty result is
what the caller surfaces as NotFound. -/
def verify_pickup_code (db : DB) (p_pickup_code : String) : List Order :=
  db.orders.filter (fun o =>
    o.pickup_code == p_pickup_code && decide (o.status = .ready))

/-- The row predicate of `mark_notifications_read`: belongs to the user,
unread, and (when a list of ids is given) among the given ids. -/
def notificationMatches (p_user_id : Nat) (p_notification_ids : Option (List Nat))
    (nt : Notification) : Bool :=
  nt.user_id == p_user_id && nt.read_at.isNone &&
    (match p_notification_ids with
     | none => true
     | some ids => ids.contains nt.id)

/-- The `mark_notifications_read` stored function: sets `read_at = NOW()` on
the matching rows and returns the updated state together with `ROW_COUNT`. -/
def mark_notifications_read (db : DB) (p_user_id : Nat)
    (p_notification_ids : Option (List Nat)) (now : Nat) : DB × Nat :=
  let upd := db.notifications.map (fun nt =>
    if notificationMatches p_user_id p_notification_ids nt
    then { nt with read_at := some now } else nt)
  ({ db with notifications := upd },
   db.notifications.countP (notificationMatches p_user_id p_notification_ids))

/-- The notification row inserted by the `notify_order_ready` trigger when an
order changes status to `ready`. -/
def orderReadyNotification (nid now : Nat) (o : Order) : Notification :=
  { id := nid, user_id := o.user_id, order_id := some o.id,
    ntype := "order_ready", sent_at := now, read_at := none }

/-- The notification row inserted by the `notify_order_placed` trigger after
an order is inserted. -/
def orderPlacedNotification (nid now uid oid : Nat) : Notification :=
  { id := nid, user_id := uid, order_id := some oid,
    ntype := "order_placed", sent_at := now, read_at := none }

/-- Effect of `UPDATE orders SET status = s` on one matching row, composing
the triggers installed on `orders`: `update_updated_at_column` (BEFORE
UPDATE, always sets `updated_at = NOW()`), `log_order_status_change` (BEFORE
UPDATE: when the status actually changed, inserts a history row with
`changed_by = NEW.user_id` and stamps `completed_at` when the new status is
`completed`) and `notify_order_ready` (AFTER UPDATE: inserts a notification
when the status changed to `ready`).  Returns the updated row and the rows
inserted into `order_status_history` and `notifications`. -/
def updateOrderRow (s : OrderStatus) (now nid : Nat) (o : Order) :
    Order × List HistoryEntry × List Notification :=
  let o1 := { o with updated_at := now }
  if o.status = s then
    ({ o1 with status := s }, [], [])
  else
    let entry : HistoryEntry :=
      { order_id := o.id, previous_status := some o.status, new_status := s,
        changed_by := some o.user_id, changed_at := now,
        notes := some ("Status changed from " ++ o.status.text ++ " to " ++ s.text) }
    let o2 := { o1 with
      status := s,
      completed_at := if s = .completed then some now else o1.completed_at }
    (o2, [entry], if s = .ready then [orderReadyNotification nid now o] else [])

/-- `UPDATE orders SET status = s WHERE id = oid` with the triggers of
`updateOrderRow` applied to every matching row; `nid` stands for the
generated id of any notification row. -/
def updateOrderStatus (db : DB) (oid : Nat) (s : OrderStatus) (now nid : Nat) : DB :=
  let res := db.orders.map (fun o =>
    if o.id = oid then updateOrderRow s now nid o else (o, [], []))
  { db with
    orders := res.map (fun r => r.1),
    order_status_history := db.order_status_history ++ (res.map (fun r => r.2.1)).flatten,
    notifications := db.notifications ++ (res.map (fun r => r.2.2)).flatten }

/-- The header values supplied to `INSERT INTO orders`: the application
inserts `status = 'placed'`, but the column also admits any enum value, so
the status is a parameter. -/
structure NewOrder where
  user_id : Nat
  total_amount : Int
  pickup_time : Option Nat
  pickup_code : String
  status : OrderStatus
deriving DecidableEq

/-- The values supplied to one `INSERT INTO order_items` row. -/
structure NewOrderItem where
  menu_item_id : Nat
  quantity : Nat
  unit_price : Int
deriving DecidableEq

/-- The `validate_menu_item_availability` trigger check on one inserted
order item: it raises only when the referenced menu item exists and has
`available = FALSE` (when no row is found the plpgsql `IF NOT NULL` guard
does not fire). -/
def itemUnavailable (db : DB) (it : NewOrderItem) : Bool :=
  match db.menu_items.find? (fun m => m.id == it.menu_item_id) with
  | some m => !m.available
  | none => false

/-- The order-creation transaction of the source (`BEGIN; INSERT INTO
orders ...; INSERT INTO order_items ...; COMMIT`), with the triggers and
constraints installed on those tables: `set_pickup_code` (BEFORE INSERT:
generates a code via `generate_pickup_code` when the supplied one is null
or empty), the global `UNIQUE` constraint `idx_orders_pickup_code` on
`orders.pickup_code`, the `CHECK` constraints (`total_amount >= 0`,
`quantity >= 1`, `unit_price >= 0`), `validate_menu_item_availability` on
each item row, and `notify_order_placed` (AFTER INSERT).  Any violation
aborts the transaction (`none`).  `oid` stands for the generated order id,
`nid` for the generated notification id.  The disabled
`validate_order_total` trigger is, faithfully to the source, NOT applied. -/
def createOrder (db : DB) (no : NewOrder) (items : List NewOrderItem)
    (draws : List Nat) (oid now nid : Nat) : Option DB :=
  match (if no.pickup_code = "" then generate_pickup_code db draws
         else some no.pickup_code) with
  | none => none
  | some code =>
    if db.orders.any (fun o => o.pickup_code == code) then none
    else if no.total_amount < 0 then none
    else if items.any (fun it => it.quantity < 1 || it.unit_price < 0
                                  || itemUnavailable db it) then none
    else
      some { db with
        orders := db.orders ++
          [{ id := oid, user_id := no.user_id, status := no.status,
             total_amount := no.total_amount, pickup_time := no.pickup_time,
             pickup_code := code, created_at := now, updated_at := now,
             completed_at := none }],
        order_items := db.order_items ++ items.map (fun it =>
          { order_id := oid, menu_item_id := it.menu_item_id,
            quantity := it.quantity, unit_price := it.unit_price }),
        notifications := db.notifications ++
          [orderPlacedNotification nid now no.user_id oid] }

/-- Database states reachable through the modeled operations, starting from
an empty order book over an arbitrary menu. -/
inductive Reachable : DB → Prop where
  | init (menu : List MenuItem) :
      Reachable { menu_items := menu, orders := [], order_items := [],
                  order_status_history := [], notifications := [] }
  | create {db db' : DB} (no : NewOrder) (items : List NewOrderItem)
      (draws : List Nat) (oid now nid : Nat) :
      Reachable db → createOrder db no items draws oid now nid = some db' →
      Reachable db'
  | update {db : DB} (oid : Nat) (s : OrderStatus) (now nid : Nat) :
      Reachable db → Reachable (updateOrderStatus db oid s now nid)
  | markRead {db : DB} (uid : Nat) (ids : Option (List Nat)) (now : Nat) :
      Reachable db → Reachable (mark_notifications_read db uid ids now).1

/-- The total-consistency invariant of the spec: every order's total is
within 5 cents of the sum of its items. -/
def orderTotalsOk (db : DB) : Prop :=
  ∀ o ∈ db.orders, (o.total_amount - calculate_order_total db o.id).natAbs ≤ 5

/-- Pairwise distinctness of pickup codes across all rows of `orders`. -/
def codesDistinct (db : DB) : Prop :=
  db.orders.Pairwise (fun a b => a.pickup_code ≠ b.pickup_code)

instance (db : DB) : Decidable (orderTotalsOk db) := by
  unfold orderTotalsOk; infer_instance

instance (db : DB) : Decidable (codesDistinct db) := by
  unfold codesDistinct; infer_instance

/-- The `CASE o.status ... END` priority of the staff queue query. The
query's WHERE clause admits only the four non-terminal statuses, for which
the CASE yields 1-4; the values chosen for the filtered-out terminal
statuses are irrelevant. -/
def statusPriority : OrderStatus → Nat
  | .placed => 1
  | .confirmed => 2
  | .preparing => 3
  | .ready => 4
  | .completed => 5
  | .cancelled => 6

/-- The WHERE clause of the staff queue query: `o.status IN ('placed',
'confirmed', 'preparing', 'ready')`. -/
def queueFilter (o : Order) : Bool :=
  decide (o.status = .placed) || decide (o.status = .confirmed) ||
    decide (o.status = .preparing) || decide (o.status = .ready)

/-- The ORDER BY relation of the staff queue query: status priority first,
then `created_at` ascending. -/
def queueLE (a b : Order) : Prop :=
  statusPriority a.status < statusPriority b.status ∨
    (statusPriority a.status = statusPriority b.status ∧ a.created_at ≤ b.created_at)

instance : DecidableRel queueLE := fun a b => by
  unfold queueLE; infer_instance

instance : IsTotal Order queueLE :=
  ⟨by intro a b; unfold queueLE; omega⟩

instance : IsTrans Order queueLE :=
  ⟨by intro a b c hab hbc; unfold queueLE at *; omega⟩

/-- The staff order-queue query: the non-terminal orders sorted by the
queue relation (any sort respecting `queueLE` models the ORDER BY). -/
def listQueue (db : DB) : List Order :=
  List.insertionSort queueLE (db.orders.filter queueFilter)

/-- Roles per the spec (the schema calls customers `student`). -/
inductive Role where
  | customer
  | staff
  | admin
deriving DecidableEq

/-- An authenticated principal with its resolved role. -/
structure Actor where
  id : Nat
  role : Role
deriving DecidableEq

/-- The error taxonomy of the spec. -/
inductive OrderError where
  | NotFound
  | Forbidden
  | InvalidItem
  | InvalidTransition
  | Conflict
deriving DecidableEq

/-- The legal-successor relation of the spec state graph: `placed →
confirmed → preparing → ready → completed`, with `cancelled` reachable from
`placed` or `confirmed` only. -/
def legalSuccessor : OrderStatus → OrderStatus → Bool
  | .placed, .confirmed => true
  | .confirmed, .preparing => true
  | .preparing, .ready => true
  | .ready, .completed => true
  | .placed, .cancelled => true
  | .confirmed, .cancelled => true
  | _, _ => false

/-- Modelled from the spec: the authorization rule of `transitionStatus` -
staff and admin may transition any order; the owner may only cancel while
the status is `placed` or `confirmed`.  The application-layer operation is
not in the repository (only its database substrate is). -/
def mayTransition (a : Actor) (o : Order) (newStatus : OrderStatus) : Bool :=
  decide (a.role = .staff) || decide (a.role = .admin) ||
    (a.id == o.user_id &&
      (decide (o.status = .placed) || decide (o.status = .confirmed)) &&
      decide (newStatus = .cancelled))

/-- Modelled from the spec: `transitionStatus(orderId, newStatus, actor)`.
The application-layer orchestrator is missing from the repository; only
the raw `UPDATE orders SET status` statements and the triggers they fire
are present.  Following the spec's words: fail `Forbidden` unless
authorized, succeed as a pure no-op when the target equals the current
status, fail `InvalidTransition` when the target is not a legal successor,
and otherwise perform the store update (which appends the audit row via
the triggers).  Returns the resulting state and the error, if any; on an
error the state is returned unchanged. -/
def transitionStatus (db : DB) (orderId : Nat) (newStatus : OrderStatus)
    (actor : Actor) (now nid : Nat) : DB × Option OrderError :=
  match db.orders.find? (fun o => o.id == orderId) with
  | none => (db, some .NotFound)
  | some o =>
    if !mayTransition actor o newStatus then (db, some .Forbidden)
    else if o.status = newStatus then (db, none)
    else if !legalSuccessor o.status newStatus then (db, some .InvalidTransition)
    else (updateOrderStatus db orderId newStatus now nid, none)

/-- The menu of the repository's sample order-creation transaction:
Cheeseburger $9.00, French Fries $3.50, Latte $4.00, Brownie $3.50 (seed
data prices, in cents). -/
def sampleMenu : List MenuItem :=
  [⟨1, 900, true⟩, ⟨2, 350, true⟩, ⟨3, 400, true⟩, ⟨4, 350, true⟩]

/-- Initial state over the sample menu. -/
def db0 : DB := ⟨sampleMenu, [], [], [], []⟩

/-- The header of the repository's sample insert: `total_amount = 24.50`,
status `placed`, no explicit pickup code. -/
def sampleHeader : NewOrder := ⟨7, 2450, none, "", .placed⟩

/-- The items of the repository's sample insert: Cheeseburger x1 at 9.00,
Fries x2 at 3.50, Latte x1 at 4.00, Brownie x1 at 3.50. -/
def sampleItems : List NewOrderItem :=
  [⟨1, 1, 900⟩, ⟨2, 2, 350⟩, ⟨3, 1, 400⟩, ⟨4, 1, 350⟩]

/-- The state after the repository's sample order-creation transaction. -/
def dbBad : DB := (createOrder db0 sampleHeader sampleItems [42] 1 0 100).getD db0

/-- A single placed order with pickup code 0042. -/
def order1 : Order := ⟨1, 7, .placed, 0, none, "0042", 0, 0, none⟩

/-- State holding only `order1`. -/
def db1 : DB := ⟨[], [order1], [], [], []⟩

/-- A single order in `preparing`, owned by user 7. -/
def orderPrep : Order := ⟨1, 7, .preparing, 0, none, "0042", 0, 0, none⟩

/-- State holding only `orderPrep`. -/
def dbPrep : DB := ⟨[], [orderPrep], [], [], []⟩

/-- A single `ready` order with pickup code 0042. -/
def orderReady : Order := ⟨1, 7, .ready, 0, none, "0042", 0, 0, none⟩

/-- State holding only `orderReady`. -/
def dbReady : DB := ⟨[], [orderReady], [], [], []⟩

/-- A single `completed` (terminal) order with pickup code 0042. -/
def orderDone : Order := ⟨1, 7, .completed, 0, none, "0042", 0, 0, none⟩

/-- State holding only the terminal `orderDone`. -/
def dbDone : DB := ⟨[], [orderDone], [], [], []⟩

/-- A staff principal distinct from the owner of the sample orders. -/
def staffActor : Actor := ⟨99, .staff⟩

/-- The owner of the sample orders, as a customer principal. -/
def ownerActor : Actor := ⟨7, .customer⟩

/-- An order header carrying an explicit pickup code equal to the code of
the sample orders. -/
def dupHeader : NewOrder := ⟨8, 100, none, "0042", .placed⟩

/-! ## Helper lemmas -/

theorem digitChar_isDigit {m : Nat} (h : m < 10) : (Nat.digitChar m).isDigit = true := by
  interval_cases m <;> rfl

theorem lpad4_length (n : Nat) : (lpad4 n).length = 4 := rfl

theorem lpad4_digits (n : Nat) : ∀ c ∈ (lpad4 n).toList, c.isDigit = true := by
  intro c hc
  simp only [lpad4, String.toList, String.data, List.mem_cons, List.not_mem_nil, or_false] at hc
  rcases hc with h | h | h | h <;> subst h <;>
    exact digitChar_isDigit (Nat.mod_lt _ (by norm_num))

theorem updateOrderRow_pickup_code (s : OrderStatus) (now nid : Nat) (o : Order) :
    ((updateOrderRow s now nid o).1).pickup_code = o.pickup_code := by
  simp only [updateOrderRow]
  split <;> rfl

theorem updateOrderRow_id (s : OrderStatus) (now nid : Nat) (o : Order) :
    ((updateOrderRow s now nid o).1).id = o.id := by
  simp only [updateOrderRow]
  split <;> rfl

theorem updateOrderRow_total_amount (s : OrderStatus) (now nid : Nat) (o : Order) :
    ((updateOrderRow s now nid o).1).total_amount = o.total_amount := by
  simp only [updateOrderRow]
  split <;> rfl

theorem updateOrderStatus_orders (db : DB) (oid : Nat) (s : OrderStatus) (now nid : Nat) :
    (updateOrderStatus db oid s now nid).orders =
      db.orders.map (fun o => if o.id = oid then (updateOrderRow s now nid o).1 else o) := by
  simp only [updateOrderStatus, List.map_map]
  apply List.map_congr_left
  intro o _
  by_cases h : o.id = oid <;> simp [h]

theorem updateOrderStatus_order_items (db : DB) (oid : Nat) (s : OrderStatus) (now nid : Nat) :
    (updateOrderStatus db oid s now nid).order_items = db.order_items := rfl

theorem calculate_order_total_update (db : DB) (oid : Nat) (s : OrderStatus)
    (now nid x : Nat) :
    calculate_order_total (updateOrderStatus db oid s now nid) x =
      calculate_order_total db x := rfl

/-! ## Claim C1 -/

/-- Claim C1, as stated, is false on the code: the `validate_order_total`
trigger is commented out, so nothing enforces the total invariant at
creation.  The repository's own sample order-creation transaction (header
total 24.50; items Cheeseburger x1 at 9.00, Fries x2 at 3.50, Latte x1 at
4.00, Brownie x1 at 3.50, summing to 23.50) commits successfully and
produces an order whose total differs from the item sum by 1.00 > 0.05. -/
theorem spec_c1_cex :
    createOrder db0 sampleHeader sampleItems [42] 1 0 100 = some dbBad ∧
      ¬ orderTotalsOk dbBad := by
  constructor
  · rfl
  · decide

/-- Claim C1 (amended): the `validate_order_total` check accepts an order
exactly when its total is within 0.05 of the sum of its items, and every
status update (the only modeled mutation of existing orders) preserves the
totals invariant when it already holds; but the invariant is not enforced
at creation, the installing trigger being disabled. -/
theorem spec_c1_amended :
    (∀ (db : DB) (o : Order),
        validate_order_total db o = true ↔
          (o.total_amount - calculate_order_total db o.id).natAbs ≤ 5) ∧
    (∀ (db : DB) (oid : Nat) (s : OrderStatus) (now nid : Nat),
        orderTotalsOk db → orderTotalsOk (updateOrderStatus db oid s now nid)) := by
  constructor
  · intro db o
    unfold validate_order_total
    split <;> rename_i h
    · constructor
      · intro hfalse; exact absurd hfalse (by simp)
      · intro hle; omega
    · constructor
      · intro _; omega
      · intro _; rfl
  · intro db oid s now nid h o ho
    rw [updateOrderStatus_orders] at ho
    rcases List.mem_map.1 ho with ⟨o0, ho0, rfl⟩
    rw [calculate_order_total_update]
    by_cases hid : o0.id = oid
    · rw [if_pos hid, updateOrderRow_total_amount, updateOrderRow_id]
      exact h o0 ho0
    · rw [if_neg hid]
      exact h o0 ho0

/-- Witness for the amended claim C1 at a concrete state: `db1` satisfies
the totals invariant and still does after a status update. -/
theorem spec_c1_witness :
    orderTotalsOk db1 ∧ orderTotalsOk (updateOrderStatus db1 1 .confirmed 5 9) :=
  ⟨by decide, spec_c1_amended.2 db1 1 .confirmed 5 9 (by decide)⟩

/-! ## Claim C2 -/

theorem createOrder_orders {db db' : DB} {no : NewOrder} {items : List NewOrderItem}
    {draws : List Nat} {oid now nid : Nat}
    (h : createOrder db no items draws oid now nid = some db') :
    ∃ hdr : Order, db'.orders = db.orders ++ [hdr] ∧
      db.orders.any (fun o => o.pickup_code == hdr.pickup_code) = false := by
  unfold createOrder at h
  split at h
  · exact absurd h (by simp)
  · rename_i code hcode
    split at h
    · exact absurd h (by simp)
    · rename_i hdup
      split at h
      · exact absurd h (by simp)
      · split at h
        · exact absurd h (by simp)
        · rw [Option.some.injEq] at h
          subst h
          exact ⟨_, rfl, by simpa using hdup⟩

theorem markRead_orders (db : DB) (uid : Nat) (ids : Option (List Nat)) (now : Nat) :
    ((mark_notifications_read db uid ids now).1).orders = db.orders := rfl

theorem reachable_codesDistinct {db : DB} (h : Reachable db) : codesDistinct db := by
  induction h with
  | init menu => exact List.Pairwise.nil
  | create no items draws oid now nid hr hc ih =>
    rcases createOrder_orders hc with ⟨hdr, horders, hany⟩
    unfold codesDistinct at *
    rw [horders, List.pairwise_append]
    refine ⟨ih, List.pairwise_singleton _ _, ?_⟩
    intro a ha b hb
    rw [List.mem_singleton] at hb
    subst hb
    rw [List.any_eq_false] at hany
    intro heq
    exact absurd (by simpa using heq) (hany a ha)
  | update oid s now nid hr ih =>
    unfold codesDistinct at *
    rw [updateOrderStatus_orders, List.pairwise_map]
    refine ih.imp ?_
    intro a b hab
    by_cases h1 : a.id = oid <;> by_cases h2 : b.id = oid <;>
      simp [h1, h2, updateOrderRow_pickup_code, hab]
  | markRead uid ids now hr ih =>
    unfold codesDistinct at *
    rw [markRead_orders]
    exact ih

/-- Claim C2: in every reachable state, the pickup codes of distinct
non-terminal orders are pairwise distinct (a consequence of the global
`UNIQUE` constraint on `orders.pickup_code` checked at insertion, orders
never being deleted and updates never touching the code column). -/
theorem spec_c2 (db : DB) (h : Reachable db) :
    (db.orders.filter (fun o => !o.status.isTerminal)).Pairwise
      (fun a b => a.pickup_code ≠ b.pickup_code) :=
  (reachable_codesDistinct h).sublist (List.filter_sublist _)

/-- Witness for claim C2 at the concrete reachable state `dbBad`. -/
theorem spec_c2_witness :
    (dbBad.orders.filter (fun o => !o.status.isTerminal)).Pairwise
      (fun a b => a.pickup_code ≠ b.pickup_code) :=
  spec_c2 dbBad
    (Reachable.create sampleHeader sampleItems [42] 1 0 100
      (Reachable.init sampleMenu) (by decide))

/-! ## Claim C3 -/

/-- Claim C3, as stated, is false: quantifying over EVERY target that is
not a legal successor includes the order's current status, and by the
spec's own edge-case policy a same-status request succeeds as a no-op (left
conjunct); moreover for an unauthorized actor the authorization check takes
precedence, so the spec's own scenario (owner cancelling while `preparing`)
fails `Forbidden`, not `InvalidTransition` (right conjunct). -/
theorem spec_c3_cex :
    (transitionStatus db1 1 .placed staffActor 5 9 = (db1, none) ∧
      legalSuccessor OrderStatus.placed .placed = false) ∧
    (transitionStatus dbPrep 1 .cancelled ownerActor 5 9 = (dbPrep, some .Forbidden) ∧
      legalSuccessor OrderStatus.preparing .cancelled = false) := by
  decide

/-- Claim C3 (amended): for every order and requested status that differs
from the current status and is not a legal successor of it, a
`transitionStatus` call by an actor passing the authorization check fails
with `InvalidTransition` and the state is unchanged. -/
theorem spec_c3_amended (db : DB) (oid : Nat) (s : OrderStatus) (actor : Actor)
    (now nid : Nat) (o : Order)
    (hfind : db.orders.find? (fun x => x.id == oid) = some o)
    (hauth : mayTransition actor o s = true)
    (hne : s ≠ o.status) (hleg : legalSuccessor o.status s = false) :
    transitionStatus db oid s actor now nid = (db, some .InvalidTransition) := by
  unfold transitionStatus
  rw [hfind]
  simp [hauth, hleg, Ne.symm hne]

/-- Witness for the amended claim C3: a staff-driven `placed → ready` jump
on the concrete state `db1` fails `InvalidTransition` with the state
unchanged. -/
theorem spec_c3_witness :
    transitionStatus db1 1 .ready staffActor 5 9 = (db1, some .InvalidTransition) :=
  spec_c3_amended db1 1 .ready staffActor 5 9 order1 (by decide) (by decide)
    (by decide) (by decide)

/-! ## Claim C4 -/

/-- Claim C4: `verify_pickup_code` returns a row exactly when some order
has the given code with status exactly `ready`, and every returned row is
such an order; any other status of the matching order and any unknown code
yield the same empty result (surfaced as NotFound, never a distinct
error). -/
theorem spec_c4 (db : DB) (code : String) :
    (verify_pickup_code db code ≠ [] ↔
      ∃ o ∈ db.orders, o.pickup_code = code ∧ o.status = .ready) ∧
    (∀ o ∈ verify_pickup_code db code,
      o ∈ db.orders ∧ o.pickup_code = code ∧ o.status = .ready) := by
  constructor
  · rw [Ne, List.eq_nil_iff_forall_not_mem]
    push_neg
    constructor
    · rintro ⟨o, ho⟩
      have hm := List.mem_filter.1 ho
      refine ⟨o, hm.1, ?_⟩
      simpa using hm.2
    · rintro ⟨o, ho, h1, h2⟩
      exact ⟨o, List.mem_filter.2 ⟨ho, by simp [h1, h2]⟩⟩
  · intro o ho
    have hm := List.mem_filter.1 ho
    refine ⟨hm.1, ?_⟩
    simpa using hm.2

/-- Witness for claim C4 at a concrete state: the row returned for code
0042 in `dbReady` is the `ready` order carrying that code. -/
theorem spec_c4_witness :
    orderReady ∈ dbReady.orders ∧ orderReady.pickup_code = "0042" ∧
      orderReady.status = .ready :=
  (spec_c4 dbReady "0042").2 orderReady (by decide)

/-! ## Claim C5 -/

/-- Claim C5 is a code bug: a staff-driven `preparing → ready` update of
`orderPrep` (owned by user 7) appends exactly one history row with the
correct previous and new status, but its `changed_by` is the order OWNER's
id 7 - the trigger stores `NEW.user_id` and cannot see the acting staff
user (its own comment says it "should be updated to actual staff user in
application"). -/
theorem spec_c5_bug :
    (updateOrderStatus dbPrep 1 .ready 10 55).order_status_history =
      [{ order_id := 1, previous_status := some .preparing, new_status := .ready,
         changed_by := some 7, changed_at := 10,
         notes := some "Status changed from preparing to ready" }] ∧
    orderPrep.user_id = 7 ∧
    (updateOrderStatus dbPrep 1 .completed 10 55).orders.map
      (fun o => o.completed_at) = [some 10] := by
  decide

/-! ## Claim C6 -/

theorem flatten_map_nil {α β : Type} (l : List α) :
    (l.map (fun _ => ([] : List β))).flatten = [] := by
  induction l with
  | nil => rfl
  | cons a l ih => simp [ih]

/-- Claim C6, as stated, is false on the code: a same-status `UPDATE` (the
realization of a same-status transition) appends no history row, but the
`update_updated_at_column` trigger fires on every update of `orders`, so
`updated_at` changes (here from 0 to 5) - not every field is unchanged. -/
theorem spec_c6_cex :
    (updateOrderStatus db1 1 .placed 5 9).order_status_history = [] ∧
    (updateOrderStatus db1 1 .placed 5 9).orders.map (fun o => o.updated_at) = [5] ∧
    db1.orders.map (fun o => o.updated_at) = [0] := by
  decide

/-- Claim C6 (amended): when the target status equals the current status of
every matched order, the update succeeds, appends no history row and no
notification, and leaves every order field unchanged except `updated_at`,
which is set to the update time by the timestamp trigger. -/
theorem spec_c6_amended (db : DB) (oid : Nat) (s : OrderStatus) (now nid : Nat)
    (h : ∀ o ∈ db.orders, o.id = oid → o.status = s) :
    updateOrderStatus db oid s now nid =
      { db with
        orders := db.orders.map
          (fun o => if o.id = oid then { o with updated_at := now } else o) } := by
  have hrow : ∀ o ∈ db.orders,
      (if o.id = oid then updateOrderRow s now nid o else (o, [], [])) =
        ((if o.id = oid then { o with updated_at := now } else o), [], []) := by
    intro o ho
    by_cases hid : o.id = oid
    · have hst := h o ho hid
      subst hst
      simp [hid, updateOrderRow]
    · simp [hid]
  unfold updateOrderStatus
  rw [List.map_congr_left hrow]
  simp [List.map_map, flatten_map_nil, Function.comp]

/-- Witness for the amended claim C6 at the concrete state `db1`. -/
theorem spec_c6_witness :
    updateOrderStatus db1 1 .placed 5 9 =
      { db1 with
        orders := db1.orders.map
          (fun o => if o.id = 1 then { o with updated_at := 5 } else o) } :=
  spec_c6_amended db1 1 .placed 5 9 (by decide)

/-! ## Claim C7 -/

/-- Claim C7: whenever the allocator loop returns a code, that code is the
zero-padded rendering of one of the uniform draws (a retried draw is one
rejected by the collision check), is a 4-character digit string, and
collides with no order that is non-terminal at allocation time. -/
theorem spec_c7 (db : DB) (draws : List Nat) (c : String)
    (h : generate_pickup_code db draws = some c) :
    (∃ d ∈ draws, c = lpad4 (d % 10000)) ∧ c.length = 4 ∧
      (∀ ch ∈ c.toList, ch.isDigit = true) ∧ activeCodeExists db c = false := by
  induction draws with
  | nil => exact absurd h (by simp [generate_pickup_code])
  | cons d rest ih =>
    simp only [generate_pickup_code] at h
    by_cases hcol : activeCodeExists db (lpad4 (d % 10000)) = true
    · rw [if_pos hcol] at h
      rcases ih h with ⟨⟨d0, hd0, hc0⟩, hrest⟩
      exact ⟨⟨d0, List.mem_cons_of_mem _ hd0, hc0⟩, hrest⟩
    · rw [if_neg hcol] at h
      rw [Option.some.injEq] at h
      subst h
      refine ⟨⟨d, List.mem_cons_self _ _, rfl⟩, lpad4_length _, lpad4_digits _, ?_⟩
      exact Bool.not_eq_true _ ▸ eq_false_of_ne_true hcol

/-- Witness for claim C7: in `db1` (whose only order holds code 0042 and
is active) the draw 42 collides and is retried, and the returned code 0007
is a fresh 4-digit string. -/
theorem spec_c7_witness :
    (∃ d ∈ [42, 7], "0007" = lpad4 (d % 10000)) ∧ ("0007" : String).length = 4 ∧
      (∀ ch ∈ ("0007" : String).toList, ch.isDigit = true) ∧
      activeCodeExists db1 "0007" = false :=
  spec_c7 db1 [42, 7] "0007" (by decide)

/-! ## Claim C8 -/

theorem queueFilter_eq (o : Order) : queueFilter o = !o.status.isTerminal := by
  cases h : o.status <;> simp [queueFilter, OrderStatus.isTerminal, h]

/-- Claim C8: the staff queue holds exactly the non-terminal orders (as a
permutation of the filtered table) and is sorted by the fixed status
priority `placed < confirmed < preparing < ready`, ties broken by creation
time ascending. -/
theorem spec_c8 (db : DB) :
    List.Perm (listQueue db) (db.orders.filter (fun o => !o.status.isTerminal)) ∧
      List.Sorted queueLE (listQueue db) := by
  constructor
  · have h1 : db.orders.filter queueFilter =
        db.orders.filter (fun o => !o.status.isTerminal) :=
      List.filter_congr (fun o _ => queueFilter_eq o)
    rw [listQueue, h1]
    exact List.perm_insertionSort _ _
  · exact List.sorted_insertionSort _ _

/-! ## Claim C9 -/

theorem notificationMatches_updated (uid : Nat) (ids : Option (List Nat)) (now : Nat)
    (nt : Notification) :
    notificationMatches uid ids { nt with read_at := some now } = false := by
  simp [notificationMatches]

theorem markRead_matches_false (db : DB) (uid : Nat) (ids : Option (List Nat)) (now : Nat) :
    ∀ nt ∈ ((mark_notifications_read db uid ids now).1).notifications,
      notificationMatches uid ids nt = false := by
  intro nt hnt
  simp only [mark_notifications_read] at hnt
  rcases List.mem_map.1 hnt with ⟨nt0, _, rfl⟩
  by_cases hm : notificationMatches uid ids nt0 = true
  · rw [if_pos hm]
    exact notificationMatches_updated uid ids now nt0
  · rw [if_neg hm]
    exact eq_false_of_ne_true hm

/-- Claim C9: `mark_notifications_read` returns the number of matching
unread rows, leaves no matching row unread, and running it again with the
same arguments (and no intervening change) affects 0 rows and returns the
state unchanged - marking an already-read notification is a no-op, not an
error. -/
theorem spec_c9 (db : DB) (uid : Nat) (ids : Option (List Nat)) (now now2 : Nat) :
    (mark_notifications_read db uid ids now).2 =
        db.notifications.countP (notificationMatches uid ids) ∧
      ((mark_notifications_read db uid ids now).1).notifications.countP
        (notificationMatches uid ids) = 0 ∧
      mark_notifications_read (mark_notifications_read db uid ids now).1 uid ids now2 =
        ((mark_notifications_read db uid ids now).1, 0) := by
  refine ⟨rfl, ?_, ?_⟩
  · rw [List.countP_eq_zero]
    intro nt hnt
    simp [markRead_matches_false db uid ids now nt hnt]
  · set db1x := (mark_notifications_read db uid ids now).1 with hdb
    have hfalse := markRead_matches_false db uid ids now
    rw [← hdb] at hfalse
    have hpt : ∀ nt ∈ db1x.notifications,
        (if notificationMatches uid ids nt then { nt with read_at := some now2 }
         else nt) = id nt := by
      intro nt hnt
      rw [if_neg]
      · rfl
      · simp [hfalse nt hnt]
    have hcount : db1x.notifications.countP (notificationMatches uid ids) = 0 := by
      rw [List.countP_eq_zero]
      intro nt hnt
      simp [hfalse nt hnt]
    unfold mark_notifications_read
    rw [List.map_congr_left hpt, List.map_id, hcount]

/-! ## Claim C10 -/

/-- Claim C10: pickup codes are globally unique - in every reachable state
the codes of ALL orders (terminal ones included) are pairwise distinct;
inserting an order whose explicit code equals that of any existing order,
even a terminal one, fails; yet the allocator's own collision check excludes
terminal orders (in `dbDone`, whose only order is `completed` with code
0042, the allocator happily returns 0042 again). -/
theorem spec_c10 :
    (∀ db : DB, Reachable db → codesDistinct db) ∧
    (∀ (db : DB) (no : NewOrder) (items : List NewOrderItem) (draws : List Nat)
        (oid now nid : Nat),
        no.pickup_code ≠ "" →
        db.orders.any (fun o => o.pickup_code == no.pickup_code) = true →
        createOrder db no items draws oid now nid = none) ∧
    (generate_pickup_code dbDone [42] = some "0042" ∧
      orderDone ∈ dbDone.orders ∧ orderDone.pickup_code = "0042" ∧
      orderDone.status.isTerminal = true) := by
  refine ⟨fun db h => reachable_codesDistinct h, ?_, by decide⟩
  intro db no items draws oid now nid hne hdup
  unfold createOrder
  rw [if_neg hne]
  simp [hdup]

/-- Witness for claim C10: global code distinctness at the concrete
reachable state `dbBad`, and a concrete insert that reuses the code of the
terminal order in `dbDone` and is rejected. -/
theorem spec_c10_witness :
    codesDistinct dbBad ∧ createOrder dbDone dupHeader [] [] 2 0 0 = none :=
  ⟨spec_c10.1 dbBad
      (Reachable.create sampleHeader sampleItems [42] 1 0 100
        (Reachable.init sampleMenu) (by decide)),
    spec_c10.2.1 dbDone dupHeader [] [] 2 0 0 (by decide) (by decide)⟩

end Cafeteria
